import Mathlib

/-!
Verification of the assessment session state machine of the
`emotion_detection` repository (files `src/app.py`, `src/emotion_app.py`
and the `src/core` modules). The two near-duplicate Streamlit flows are
embedded as pure transition functions on explicit session-state records:
`appStep` models one completed `responseSubmitted` event of `app.py`
(mmse branch, lines 273-315) and `emoStep` models the corresponding
event of `emotion_app.py` (lines 232-296). Collaborator calls
(voice analysis, transcription, facial-emotion classification) are
out of scope and enter as parameters of a step; fallible collaborators
are passed as `Except` values.
-/

namespace EmotionDetection

/-! ## Python string primitives used by the scoring code -/

/-- Python `str.strip` whitespace set: space, tab, newline, carriage
return, vertical tab, form feed. -/
def pyIsSpace (c : Char) : Bool :=
  c = ' ' || c = '\t' || c = '\n' || c = '\r' || c = '\x0b' || c = '\x0c'

/-- Python `str.strip()` with no argument: drop leading and trailing
whitespace. -/
def pyStrip (s : String) : String :=
  String.mk (((s.data.dropWhile pyIsSpace).reverse.dropWhile pyIsSpace).reverse)

/-- ASCII lower-casing of one character, as Python `str.lower` acts on
the ASCII text this program handles. -/
def pyCharLower (c : Char) : Char :=
  if 'A' ≤ c ∧ c ≤ 'Z' then Char.ofNat (c.toNat + 32) else c

/-- Python `str.lower()` on ASCII text. -/
def pyLower (s : String) : String :=
  String.mk (s.data.map pyCharLower)

/-- Python `s.startswith(pre)`. -/
def pyStartswith (s pre : String) : Bool :=
  pre.data.isPrefixOf s.data

/-- Helper for substring search: does `needle` occur inside `hay`? -/
def subOccurs (needle : List Char) : List Char → Bool
  | [] => needle.isPrefixOf []
  | c :: t => needle.isPrefixOf (c :: t) || subOccurs needle t

/-- Python `sub in s` for strings: substring containment. -/
def pyContains (s sub : String) : Bool :=
  subOccurs sub.data s.data

/-! ## The task catalog (`core/mmse_tasks.py` / `emotion_app.py` lines 15-29) -/

/-- An `answer` value of a task: Python stores either a string or a list
(of strings, or of ints). -/
inductive Answer where
  | scalar : String → Answer
  | strList : List String → Answer
  | natList : List Nat → Answer
deriving DecidableEq, Repr

/-- Whether the `answer` field holds a sequence rather than a scalar. -/
def Answer.isSeq : Answer → Bool
  | .scalar _ => false
  | .strList _ => true
  | .natList _ => true

/-- Python `repr` of a simple quote-free string: wrapped in single
quotes, as it renders inside `str(list)`. -/
def pyReprStr (s : String) : String :=
  "'" ++ s ++ "'"

/-- Python `str(x)` of a task's `answer` value, as applied by the
scoring line `text.strip().lower().startswith(str(task['answer']))`
of `app.py` line 302. A list renders with brackets, commas and
(for strings) single quotes. -/
def pyStr : Answer → String
  | .scalar s => s
  | .strList xs => "[" ++ String.intercalate ", " (xs.map pyReprStr) ++ "]"
  | .natList xs => "[" ++ String.intercalate ", " (xs.map toString) ++ "]"

/-- One entry of the MMSE task catalog. -/
structure Task where
  question : String
  answer : Answer
  points : Nat
deriving DecidableEq, Repr

def task_year : Task := ⟨"What year is it?", Answer.scalar "2024", 1⟩

def task_season : Task := ⟨"Current season?", Answer.scalar "summer", 1⟩

def task_memory : Task :=
  ⟨"Remember: Apple, Table, Penny", Answer.strList ["apple", "table", "penny"], 3⟩

def task_attention : Task :=
  ⟨"Count down from 20 by 3", Answer.natList [20, 17, 14, 11, 8, 5, 2], 5⟩

def task_language : Task :=
  ⟨"Repeat: 'No ifs, ands, or buts'", Answer.scalar "no ifs ands or buts", 1⟩

/-- `MMSE_TASKS`: the ordered catalog of categories (insertion order of
the Python dict: orientation, memory, attention, language). -/
def MMSE_TASKS : List (String × List Task) :=
  [("orientation", [task_year, task_season]),
   ("memory", [task_memory]),
   ("attention", [task_attention]),
   ("language", [task_language])]

/-- All catalog tasks in traversal order. -/
def catalogTasks : List Task :=
  [task_year, task_season, task_memory, task_attention, task_language]

/-- The `app.py` flow only ever consumes the first category (see
`appStep`): its traversal order. -/
def appOrderTasks : List Task :=
  [task_year, task_season]

/-! ## Session state (`MobileCognitiveAnalyzer` and the Streamlit session keys) -/

/-- Voice metrics produced by the `analyze_voice` collaborator. The
analysis itself is out of scope; values are carried opaquely. -/
structure Metrics where
  stress : Rat
  anxiety : Rat
  depression : Rat
deriving DecidableEq, Repr

/-- One `task_performance` entry: `{'score': .., 'max': ..}` in
`app.py` line 308 and `{'score': .., 'max': .., 'emotion': ..}` in
`emotion_app.py` lines 281-283 (the emotion field is absent in the
former, hence the `Option`). -/
structure Perf where
  score : Nat
  max : Nat
  emotion : Option String
deriving DecidableEq, Repr

/-- `MobileCognitiveAnalyzer` (`core/analyzer.py`): the per-session
aggregate. `task_performance` is a Python dict keyed by question text,
modelled as an insertion-ordered association list. -/
structure MobileCognitiveAnalyzer where
  mmse_score : Nat
  stress_history : List Rat
  anxiety_signals : List Rat
  depression_signals : List Rat
  confusion_count : Nat
  emotion_timeline : List String
  task_performance : List (String × Perf)
deriving DecidableEq, Repr

/-- `reset_session` (`core/analyzer.py` lines 6-13): every field
zeroed/emptied; `__init__` calls it, so this is also the fresh state. -/
def resetAnalyzer : MobileCognitiveAnalyzer :=
  ⟨0, [], [], [], 0, [], []⟩

/-- Python dict assignment `d[k] = v` on an insertion-ordered
association list: replace in place when the key exists, append
otherwise. -/
def dictSet (tp : List (String × Perf)) (k : String) (v : Perf) :
    List (String × Perf) :=
  if k ∈ tp.map Prod.fst then
    tp.map (fun p => if p.1 = k then (k, v) else p)
  else tp ++ [(k, v)]

/-- The block of mutations both variants apply to the analyzer on a
completed response (`app.py` lines 303-308, `emotion_app.py` lines
276-283): add the score, append the three voice metrics, append the
timeline label, write the `task_performance` entry. -/
def pushResult (a : MobileCognitiveAnalyzer) (qk : String)
    (score maxv : Nat) (st ax dp : Rat) (em : String)
    (pe : Option String) : MobileCognitiveAnalyzer :=
  { mmse_score := a.mmse_score + score
    stress_history := a.stress_history ++ [st]
    anxiety_signals := a.anxiety_signals ++ [ax]
    depression_signals := a.depression_signals ++ [dp]
    confusion_count := a.confusion_count
    emotion_timeline := a.emotion_timeline ++ [em]
    task_performance := dictSet a.task_performance qk ⟨score, maxv, pe⟩ }

/-- The session stages. `app.py` spells the terminal stage "results"
and `emotion_app.py` spells it "result"; both play the Results role and
share one constructor here. -/
inductive Stage where
  | consent
  | user_info
  | baseline
  | mmse
  | results
deriving DecidableEq, Repr

/-! ## The `app.py` flow -/

/-- Session state of the `app.py` flow: the analyzer plus the Streamlit
session keys `stage`, `user_id`, `task_idx`, `tasks_remaining`,
`current_q` (initialized at `app.py` lines 170-184). -/
structure AppState where
  analyzer : MobileCognitiveAnalyzer
  stage : Stage
  user_id : String
  task_idx : Nat
  tasks_remaining : List Task
  current_q : String
deriving DecidableEq, Repr

/-- State on entering the mmse stage of `app.py` (analyzer fresh,
`task_idx = 0`, no tasks loaded yet). -/
def appStart : AppState :=
  ⟨resetAnalyzer, Stage.mmse, "", 0, [], ""⟩

/-- `app.py` lines 275-278: on rendering the mmse stage with an empty
`tasks_remaining`, load the category at `task_idx` and point
`current_q` at its first question. Out-of-range indexing or an empty
category would raise in Python before mutating further; those branches
return the state reached at the raise and are unreachable over the
shipped catalog. -/
def appLoad (s : AppState) : AppState :=
  if s.tasks_remaining.isEmpty then
    match MMSE_TASKS.get? s.task_idx with
    | none => s
    | some cat =>
      match cat.2 with
      | [] => s
      | t :: _ => { s with tasks_remaining := cat.2, current_q := t.question }
  else s

/-- `app.py` line 302: score the popped task against the transcription,
`task['points'] if text.strip().lower().startswith(str(task['answer'])) else 0`.
Note the answer is rendered with `str` (not lower-cased, lists rendered
with brackets and quotes). -/
def appScore (task : Task) (text : String) : Nat :=
  if pyStartswith (pyLower (pyStrip text)) (pyStr task.answer) then task.points
  else 0

/-- One completed `responseSubmitted` event of `app.py` (lines 273-314):
load the category if needed, pop the head task, score the transcription,
push the result, then either advance `current_q` or — when the category
is exhausted — transition straight to results (`task_idx` is never
incremented in this variant). The timeline label appended is the raw
transcription. -/
def appStep (s : AppState) (m : Metrics) (text : String) : AppState :=
  if s.stage = Stage.mmse then
    let s1 := appLoad s
    match s1.tasks_remaining with
    | [] => s1
    | task :: rest =>
      let points := appScore task text
      let a := pushResult s1.analyzer task.question points task.points
        m.stress m.anxiety m.depression text none
      match rest with
      | [] => { s1 with analyzer := a, tasks_remaining := [], stage := Stage.results }
      | t2 :: _ => { s1 with analyzer := a, tasks_remaining := rest, current_q := t2.question }
  else s

/-- A run of successive `app.py` response submissions, each carrying the
voice metrics and transcription the collaborators produced. -/
def appRun (s : AppState) (inputs : List (Metrics × String)) : AppState :=
  inputs.foldl (fun st p => appStep st p.1 p.2) s

/-- The fallible `app.py` step: `analyze_voice` (line 295) and
`transcribe_audio` (line 298) may raise; neither call is wrapped in a
try/except, and both precede every session mutation of the step
(pop at line 301, analyzer writes at lines 303-308). An error therefore
escapes with the session exactly as the top-of-render load left it; the
error payload records that state. -/
def appStepE (s : AppState) (mv : Except Unit Metrics)
    (tr : Except Unit String) : Except AppState AppState :=
  if s.stage = Stage.mmse then
    match mv with
    | .error _ => .error (appLoad s)
    | .ok m =>
      match tr with
      | .error _ => .error (appLoad s)
      | .ok text => .ok (appStep s m text)
  else .ok s

/-- `app.py` lines 238-246 (`user_info` stage): pressing Continue
advances to baseline only when the entered name is non-empty (Python
truthiness of `name`); `user_id` becomes the name with spaces replaced
by underscores. No exception is raised on an empty name — the render
simply leaves everything unchanged. The age widget clamps its value to
[18, 120], so no out-of-range age reaches this code. -/
def appIdentity (s : AppState) (name : String) : AppState :=
  if s.stage = Stage.user_info ∧ name ≠ "" then
    { s with user_id := (name.replace " " "_"), stage := Stage.baseline }
  else s

/-! ## The `emotion_app.py` flow -/

/-- Session state of the `emotion_app.py` flow (session keys
initialized at lines 158-166; the `user` dict is modelled by its two
entries). -/
structure EmoState where
  analyzer : MobileCognitiveAnalyzer
  stage : Stage
  user_name : String
  user_age : Nat
  task_idx : Nat
  tasks_remaining : List Task
  current_q : String
deriving DecidableEq, Repr

/-- State on entering the mmse stage of `emotion_app.py`. -/
def emoStart : EmoState :=
  ⟨resetAnalyzer, Stage.mmse, "", 0, 0, [], ""⟩

/-- `emotion_app.py` lines 233-236: same category-loading render prefix
as `appLoad`. -/
def emoLoad (s : EmoState) : EmoState :=
  if s.tasks_remaining.isEmpty then
    match MMSE_TASKS.get? s.task_idx with
    | none => s
    | some cat =>
      match cat.2 with
      | [] => s
      | t :: _ => { s with tasks_remaining := cat.2, current_q := t.question }
  else s

/-- The facial-emotion label of a step (`emotion_app.py` lines
259-267): no captured image yields "neutral"; a captured image goes to
the DeepFace collaborator, whose raising is caught by the bare
`except` and also yields "neutral". -/
def emoEmotion (img : Option (Except Unit String)) : String :=
  match img with
  | none => "neutral"
  | some (Except.ok e) => e
  | some (Except.error _) => "neutral"

/-- The inputs one `emotion_app.py` response submission consumes: voice
metrics, the optional image together with its classification outcome,
and the manual verification text box. -/
structure EmoInput where
  metrics : Metrics
  img : Option (Except Unit String)
  user_resp : String

/-- One completed `responseSubmitted` event of `emotion_app.py` (lines
232-296), after the facial-emotion label has been resolved (the code
computes it first, lines 259-267): load the category if needed, look
the current question up in the category (line 269), score it by the
manual text box being non-blank (lines 270-274), push the result keyed
by `current_q`, pop the head task, and on category exhaustion advance
`task_idx`, transitioning to results after the last category. The
`none` match arms model Python raising (IndexError / StopIteration)
before any further mutation; they are unreachable over the shipped
catalog. -/
def emoStepCore (s : EmoState) (m : Metrics) (emotion : String)
    (user_resp : String) : EmoState :=
  if s.stage = Stage.mmse then
    let s1 := emoLoad s
    match MMSE_TASKS.get? s1.task_idx with
    | none => s1
    | some cat =>
      match cat.2.find? (fun t => t.question = s1.current_q) with
      | none => s1
      | some ct =>
        let score := if pyStrip user_resp ≠ "" then ct.points else 0
        let a := pushResult s1.analyzer s1.current_q score ct.points
          m.stress m.anxiety m.depression emotion (some emotion)
        match s1.tasks_remaining with
        | [] => { s1 with analyzer := a }
        | _ :: rest =>
          let cq := match rest with
            | [] => ""
            | t :: _ => t.question
          if rest.isEmpty then
            if MMSE_TASKS.length ≤ s1.task_idx + 1 then
              { s1 with
                analyzer := a
                tasks_remaining := rest
                current_q := cq
                task_idx := s1.task_idx + 1
                stage := Stage.results }
            else
              { s1 with
                analyzer := a
                tasks_remaining := rest
                current_q := cq
                task_idx := s1.task_idx + 1 }
          else
            { s1 with analyzer := a, tasks_remaining := rest, current_q := cq }
  else s

/-- One completed `responseSubmitted` event of `emotion_app.py` on the
raw step inputs. -/
def emoStep (s : EmoState) (i : EmoInput) : EmoState :=
  emoStepCore s i.metrics (emoEmotion i.img) i.user_resp

/-- A run of successive `emotion_app.py` response submissions. -/
def emoRun (s : EmoState) (inputs : List EmoInput) : EmoState :=
  inputs.foldl emoStep s

/-- `emotion_app.py` lines 186-193 (`user_info` stage): the form stores
whatever name was typed and advances to baseline unconditionally on
submit — there is no name check and no error path. The age widget
clamps to [18, 120]. -/
def emoIdentity (s : EmoState) (name : String) (age : Nat) : EmoState :=
  if s.stage = Stage.user_info then
    { s with user_name := name, user_age := age, stage := Stage.baseline }
  else s

/-! ## Report rendering constants (`core/pdf_utils.py`, results pages) -/

/-- The denominator the report renders after the score:
`f"MMSE Score: {results['mmse_score']}/30"` (`core/pdf_utils.py`
line 13, `app.py` line 321, `emotion_app.py` line 302). -/
def pdfScoreDenominator : Nat := 30

/-- The score line of the PDF report. -/
def pdfScoreLine (score : Nat) : String :=
  "MMSE Score: " ++ toString score ++ "/" ++ toString pdfScoreDenominator

/-- The sum of all point values of the shipped catalog. -/
def catalogMaxScore : Nat := (catalogTasks.map Task.points).sum

/-! ## Invariant infrastructure -/

/-- The sum of the `score` fields over a `task_performance` map. -/
def tpScoreSum (tp : List (String × Perf)) : Nat :=
  (tp.map (fun e => e.2.score)).sum

/-- The task-battery cursor: the control fields of a session state,
shared by both flow variants. -/
structure Cursor where
  stage : Stage
  task_idx : Nat
  tasks_remaining : List Task
  current_q : String
deriving DecidableEq, Repr

/-- The cursor of an `emotion_app.py` session state. -/
def emoCursor (s : EmoState) : Cursor :=
  ⟨s.stage, s.task_idx, s.tasks_remaining, s.current_q⟩

/-- The cursor of an `app.py` session state. -/
def appCursor (s : AppState) : Cursor :=
  ⟨s.stage, s.task_idx, s.tasks_remaining, s.current_q⟩

/-- The cursor of the `emotion_app.py` flow after `n` completed
response submissions: the control flow is input-independent, so it is
a function of the step count alone. The battery finishes on the 5th
step and stays at results from then on. -/
def emoCursorAt : Nat → Cursor
  | 0 => ⟨Stage.mmse, 0, [], ""⟩
  | 1 => ⟨Stage.mmse, 0, [task_season], "Current season?"⟩
  | 2 => ⟨Stage.mmse, 1, [], ""⟩
  | 3 => ⟨Stage.mmse, 2, [], ""⟩
  | 4 => ⟨Stage.mmse, 3, [], ""⟩
  | _ + 5 => ⟨Stage.results, 4, [], ""⟩

/-- The cursor of the `app.py` flow after `n` completed response
submissions: `task_idx` is never advanced, so the flow finishes on
the 2nd step, with the first category the only one ever visited. -/
def appCursorAt : Nat → Cursor
  | 0 => ⟨Stage.mmse, 0, [], ""⟩
  | 1 => ⟨Stage.mmse, 0, [task_season], "Current season?"⟩
  | _ + 2 => ⟨Stage.results, 0, [], "Current season?"⟩

/-- The session-aggregate invariant after `n` completed steps of a flow
that scores the tasks of `order` in order: the performance map holds
exactly the first `n` questions, entry maxima are the task point
values, every score is within its maximum, the total is the sum of the
recorded scores, each history has one entry per completed step, and the
confusion counter is untouched. -/
structure AInv (order : List Task) (a : MobileCognitiveAnalyzer) (n : Nat) : Prop where
  keys_eq : a.task_performance.map Prod.fst = (order.take n).map Task.question
  maxes_eq : a.task_performance.map (fun e => e.2.max) = (order.take n).map Task.points
  score_le : ∀ e ∈ a.task_performance, e.2.score ≤ e.2.max
  score_eq : a.mmse_score = tpScoreSum a.task_performance
  len_stress : a.stress_history.length = (order.take n).length
  len_anxiety : a.anxiety_signals.length = (order.take n).length
  len_depression : a.depression_signals.length = (order.take n).length
  len_timeline : a.emotion_timeline.length = (order.take n).length
  confusion_eq : a.confusion_count = 0

lemma take_succ_of_get? {α : Type} {l : List α} {n : Nat} {x : α}
    (h : l.get? n = some x) : l.take (n + 1) = l.take n ++ [x] := by
  induction l generalizing n with
  | nil => simp at h
  | cons a t ih =>
    cases n with
    | zero =>
      simp only [List.get?] at h
      cases h
      simp
    | succ m =>
      simp only [List.get?] at h
      simp [ih h]

/-- The fresh analyzer satisfies the invariant at step 0. -/
lemma AInv.reset (order : List Task) : AInv order resetAnalyzer 0 := by
  refine ⟨?_, ?_, ?_, ?_, ?_, ?_, ?_, ?_, ?_⟩ <;> simp [resetAnalyzer, tpScoreSum]

/-- Pushing the `n`-th task's result preserves the invariant, provided
the task's question is new to the performance map. -/
lemma AInv.push {order : List Task} {a : MobileCognitiveAnalyzer} {n : Nat}
    (h : AInv order a n) {tk : Task} (hget : order.get? n = some tk)
    (hq : tk.question ∉ (order.take n).map Task.question)
    {score : Nat} (hs : score ≤ tk.points) {st ax dp : Rat} {em : String}
    {pe : Option String} :
    AInv order (pushResult a tk.question score tk.points st ax dp em pe) (n + 1) := by
  have htake : order.take (n + 1) = order.take n ++ [tk] := take_succ_of_get? hget
  have hkeys : tk.question ∉ a.task_performance.map Prod.fst := by
    rw [h.keys_eq]; exact hq
  have hdict : dictSet a.task_performance tk.question ⟨score, tk.points, pe⟩
      = a.task_performance ++ [(tk.question, ⟨score, tk.points, pe⟩)] := by
    unfold dictSet
    rw [if_neg hkeys]
  refine ⟨?_, ?_, ?_, ?_, ?_, ?_, ?_, ?_, ?_⟩
  · simp [pushResult, hdict, htake, h.keys_eq]
  · simp [pushResult, hdict, htake, h.maxes_eq]
  · intro e he
    simp only [pushResult, hdict, List.mem_append, List.mem_singleton] at he
    rcases he with h1 | h1
    · exact h.score_le e h1
    · subst h1; simpa using hs
  · simp [pushResult, hdict, tpScoreSum, h.score_eq]
  · simp [pushResult, htake, h.len_stress]
  · simp [pushResult, htake, h.len_anxiety]
  · simp [pushResult, htake, h.len_depression]
  · simp [pushResult, htake, h.len_timeline]
  · simp [pushResult, h.confusion_eq]

/-- Once the whole order has been scored, the invariant carries over to
any later step count (the steps are no-ops). -/
lemma AInv.succ_of_le {order : List Task} {a : MobileCognitiveAnalyzer} {n : Nat}
    (h : AInv order a n) (hl : order.length ≤ n) : AInv order a (n + 1) := by
  have htake : order.take (n + 1) = order.take n := by
    rw [List.take_of_length_le hl, List.take_of_length_le (le_trans hl (Nat.le_succ n))]
  refine ⟨?_, ?_, ?_, ?_, ?_, ?_, ?_, ?_, ?_⟩ <;>
    (try rw [htake]) <;>
    first
      | exact h.keys_eq
      | exact h.maxes_eq
      | exact h.score_le
      | exact h.score_eq
      | exact h.len_stress
      | exact h.len_anxiety
      | exact h.len_depression
      | exact h.len_timeline
      | exact h.confusion_eq

/-- The analyzer total never exceeds the sum of the order's points. -/
lemma AInv.score_bound {order : List Task} {a : MobileCognitiveAnalyzer} {n : Nat}
    (h : AInv order a n) : a.mmse_score ≤ (order.map Task.points).sum := by
  have h1 : tpScoreSum a.task_performance
      ≤ (a.task_performance.map (fun e => e.2.max)).sum :=
    List.sum_le_sum h.score_le
  have h2 : (a.task_performance.map (fun e => e.2.max)).sum
      = ((order.take n).map Task.points).sum := by rw [h.maxes_eq]
  have h3 : ((order.take n).map Task.points).sum ≤ (order.map Task.points).sum := by
    conv_rhs => rw [← List.take_append_drop n order]
    rw [List.map_append, List.sum_append]
    exact Nat.le_add_right _ _
  rw [h.score_eq]
  omega

/-- The performance map has one entry per completed step. -/
lemma AInv.tp_length {order : List Task} {a : MobileCognitiveAnalyzer} {n : Nat}
    (h : AInv order a n) : a.task_performance.length = (order.take n).length := by
  have := congrArg List.length h.keys_eq
  simpa using this

/-! ## Reachability of the two flows -/

/-- What holds of an `emotion_app.py` session state after `n` completed
response submissions from the start of the battery. -/
def EmoReachN (s : EmoState) (n : Nat) : Prop :=
  emoCursor s = emoCursorAt n ∧ AInv catalogTasks s.analyzer n

/-- What holds of an `app.py` session state after `n` completed
response submissions from the start of the battery. -/
def AppReachN (s : AppState) (n : Nat) : Prop :=
  appCursor s = appCursorAt n ∧ AInv appOrderTasks s.analyzer n

lemma ite_score_le (c : Prop) [Decidable c] (p : Nat) : (if c then p else 0) ≤ p := by
  split <;> simp

lemma appScore_le (task : Task) (text : String) : appScore task text ≤ task.points := by
  unfold appScore
  split <;> simp

lemma emoStep_reachN (s : EmoState) (i : EmoInput) (n : Nat)
    (h : EmoReachN s n) : EmoReachN (emoStep s i) (n + 1) := by
  obtain ⟨hc, ha⟩ := h
  obtain ⟨a, stg, un, ua, idx, rem, cq⟩ := s
  rcases n with _ | _ | _ | _ | _ | n
  · injection hc with h1 h2 h3 h4
    subst h1; subst h2; subst h3; subst h4
    refine ⟨rfl, ?_⟩
    have hget : catalogTasks.get? 0 = some task_year := rfl
    have hstep : (emoStep ⟨a, Stage.mmse, un, ua, 0, [], ""⟩ i).analyzer
        = pushResult a task_year.question
            (if pyStrip i.user_resp ≠ "" then task_year.points else 0)
            task_year.points i.metrics.stress i.metrics.anxiety
            i.metrics.depression (emoEmotion i.img)
            (some (emoEmotion i.img)) := rfl
    rw [hstep]
    exact ha.push hget (by decide) (ite_score_le _ _)
  · injection hc with h1 h2 h3 h4
    subst h1; subst h2; subst h3; subst h4
    refine ⟨rfl, ?_⟩
    have hget : catalogTasks.get? 1 = some task_season := rfl
    have hstep : (emoStep ⟨a, Stage.mmse, un, ua, 0, [task_season], "Current season?"⟩ i).analyzer
        = pushResult a task_season.question
            (if pyStrip i.user_resp ≠ "" then task_season.points else 0)
            task_season.points i.metrics.stress i.metrics.anxiety
            i.metrics.depression (emoEmotion i.img)
            (some (emoEmotion i.img)) := rfl
    rw [hstep]
    exact ha.push hget (by decide) (ite_score_le _ _)
  · injection hc with h1 h2 h3 h4
    subst h1; subst h2; subst h3; subst h4
    refine ⟨rfl, ?_⟩
    have hget : catalogTasks.get? 2 = some task_memory := rfl
    have hstep : (emoStep ⟨a, Stage.mmse, un, ua, 1, [], ""⟩ i).analyzer
        = pushResult a task_memory.question
            (if pyStrip i.user_resp ≠ "" then task_memory.points else 0)
            task_memory.points i.metrics.stress i.metrics.anxiety
            i.metrics.depression (emoEmotion i.img)
            (some (emoEmotion i.img)) := rfl
    rw [hstep]
    exact ha.push hget (by decide) (ite_score_le _ _)
  · injection hc with h1 h2 h3 h4
    subst h1; subst h2; subst h3; subst h4
    refine ⟨rfl, ?_⟩
    have hget : catalogTasks.get? 3 = some task_attention := rfl
    have hstep : (emoStep ⟨a, Stage.mmse, un, ua, 2, [], ""⟩ i).analyzer
        = pushResult a task_attention.question
            (if pyStrip i.user_resp ≠ "" then task_attention.points else 0)
            task_attention.points i.metrics.stress i.metrics.anxiety
            i.metrics.depression (emoEmotion i.img)
            (some (emoEmotion i.img)) := rfl
    rw [hstep]
    exact ha.push hget (by decide) (ite_score_le _ _)
  · injection hc with h1 h2 h3 h4
    subst h1; subst h2; subst h3; subst h4
    refine ⟨rfl, ?_⟩
    have hget : catalogTasks.get? 4 = some task_language := rfl
    have hstep : (emoStep ⟨a, Stage.mmse, un, ua, 3, [], ""⟩ i).analyzer
        = pushResult a task_language.question
            (if pyStrip i.user_resp ≠ "" then task_language.points else 0)
            task_language.points i.metrics.stress i.metrics.anxiety
            i.metrics.depression (emoEmotion i.img)
            (some (emoEmotion i.img)) := rfl
    rw [hstep]
    exact ha.push hget (by decide) (ite_score_le _ _)
  · injection hc with h1 h2 h3 h4
    subst h1; subst h2; subst h3; subst h4
    have hl : catalogTasks.length ≤ n + 5 := by
      simp only [catalogTasks, List.length_cons, List.length_nil]
      omega
    exact ⟨rfl, ha.succ_of_le hl⟩

lemma appStep_reachN (s : AppState) (m : Metrics) (text : String) (n : Nat)
    (h : AppReachN s n) : AppReachN (appStep s m text) (n + 1) := by
  obtain ⟨hc, ha⟩ := h
  obtain ⟨a, stg, uid, idx, rem, cq⟩ := s
  rcases n with _ | _ | n
  · injection hc with h1 h2 h3 h4
    subst h1; subst h2; subst h3; subst h4
    refine ⟨rfl, ?_⟩
    have hget : appOrderTasks.get? 0 = some task_year := rfl
    have hstep : (appStep ⟨a, Stage.mmse, uid, 0, [], ""⟩ m text).analyzer
        = pushResult a task_year.question (appScore task_year text)
            task_year.points m.stress m.anxiety m.depression text none := rfl
    rw [hstep]
    exact ha.push hget (by decide) (appScore_le _ _)
  · injection hc with h1 h2 h3 h4
    subst h1; subst h2; subst h3; subst h4
    refine ⟨rfl, ?_⟩
    have hget : appOrderTasks.get? 1 = some task_season := rfl
    have hstep : (appStep ⟨a, Stage.mmse, uid, 0, [task_season], "Current season?"⟩ m text).analyzer
        = pushResult a task_season.question (appScore task_season text)
            task_season.points m.stress m.anxiety m.depression text none := rfl
    rw [hstep]
    exact ha.push hget (by decide) (appScore_le _ _)
  · injection hc with h1 h2 h3 h4
    subst h1; subst h2; subst h3; subst h4
    have hl : appOrderTasks.length ≤ n + 2 := by
      simp only [appOrderTasks, List.length_cons, List.length_nil]
      omega
    exact ⟨rfl, ha.succ_of_le hl⟩

lemma emoStart_reach : EmoReachN emoStart 0 :=
  ⟨rfl, AInv.reset _⟩

lemma appStart_reach : AppReachN appStart 0 :=
  ⟨rfl, AInv.reset _⟩

lemma emoRun_reachN (inputs : List EmoInput) :
    ∀ (s : EmoState) (n : Nat), EmoReachN s n →
      EmoReachN (emoRun s inputs) (n + inputs.length) := by
  induction inputs with
  | nil => intro s n h; simpa [emoRun] using h
  | cons i rest ih =>
    intro s n h
    have h2 := ih (emoStep s i) (n + 1) (emoStep_reachN s i n h)
    have harith : n + 1 + rest.length = n + (i :: rest).length := by
      simp only [List.length_cons]
      omega
    rw [show emoRun s (i :: rest) = emoRun (emoStep s i) rest from rfl]
    exact harith ▸ h2

lemma appRun_reachN (inputs : List (Metrics × String)) :
    ∀ (s : AppState) (n : Nat), AppReachN s n →
      AppReachN (appRun s inputs) (n + inputs.length) := by
  induction inputs with
  | nil => intro s n h; simpa [appRun] using h
  | cons p rest ih =>
    intro s n h
    have h2 := ih (appStep s p.1 p.2) (n + 1) (appStep_reachN s p.1 p.2 n h)
    have harith : n + 1 + rest.length = n + (p :: rest).length := by
      simp only [List.length_cons]
      omega
    rw [show appRun s (p :: rest) = appRun (appStep s p.1 p.2) rest from rfl]
    exact harith ▸ h2

/-- Everything `EmoReachN` records holds of a full run from the start
of the battery. -/
lemma emoRun_reach (inputs : List EmoInput) :
    EmoReachN (emoRun emoStart inputs) inputs.length := by
  simpa using emoRun_reachN inputs emoStart 0 emoStart_reach

/-- Everything `AppReachN` records holds of a full run from the start
of the battery. -/
lemma appRun_reach (inputs : List (Metrics × String)) :
    AppReachN (appRun appStart inputs) inputs.length := by
  simpa using appRun_reachN inputs appStart 0 appStart_reach

lemma emoCursorAt_stage (m : Nat) :
    (emoCursorAt m).stage = Stage.results ↔ 5 ≤ m := by
  rcases m with _ | _ | _ | _ | _ | m
  · decide
  · decide
  · decide
  · decide
  · decide
  · exact iff_of_true rfl (Nat.le_add_left 5 m)

lemma appCursorAt_stage (m : Nat) :
    (appCursorAt m).stage = Stage.results ↔ 2 ≤ m := by
  rcases m with _ | _ | m
  · decide
  · decide
  · exact iff_of_true rfl (Nat.le_add_left 2 m)

/-! ## Frame helpers -/

lemma appLoad_analyzer (s : AppState) : (appLoad s).analyzer = s.analyzer := by
  unfold appLoad
  split
  · split
    · rfl
    · split
      · rfl
      · rfl
  · rfl

lemma emoLoad_analyzer (s : EmoState) : (emoLoad s).analyzer = s.analyzer := by
  unfold emoLoad
  split
  · split
    · rfl
    · split
      · rfl
      · rfl
  · rfl

lemma pushResult_confusion (a : MobileCognitiveAnalyzer) (qk : String)
    (score maxv : Nat) (st ax dp : Rat) (em : String) (pe : Option String) :
    (pushResult a qk score maxv st ax dp em pe).confusion_count
      = a.confusion_count := rfl

lemma emoStep_confusion (s : EmoState) (i : EmoInput) :
    (emoStep s i).analyzer.confusion_count = s.analyzer.confusion_count := by
  rw [show emoStep s i = emoStepCore s i.metrics (emoEmotion i.img) i.user_resp from rfl]
  unfold emoStepCore
  dsimp only
  repeat' split
  all_goals simp [pushResult_confusion, emoLoad_analyzer]

lemma appStep_confusion (s : AppState) (m : Metrics) (text : String) :
    (appStep s m text).analyzer.confusion_count = s.analyzer.confusion_count := by
  unfold appStep
  dsimp only
  repeat' split
  all_goals simp [pushResult_confusion, appLoad_analyzer]

/-- Scoring an `app.py` task awards exactly its points or zero, with the
points awarded exactly when the rendered-answer comparison succeeds. -/
lemma appScore_cases (task : Task) (text : String) (hpos : 0 < task.points) :
    (appScore task text = task.points
        ↔ pyStartswith (pyLower (pyStrip text)) (pyStr task.answer) = true)
    ∧ (appScore task text = task.points ∨ appScore task text = 0) := by
  by_cases hb : pyStartswith (pyLower (pyStrip text)) (pyStr task.answer) = true
  · unfold appScore
    rw [if_pos hb]
    exact ⟨iff_of_true rfl hb, Or.inl rfl⟩
  · unfold appScore
    rw [if_neg hb]
    refine ⟨⟨fun h0 => ?_, fun hc => absurd hc hb⟩, Or.inr rfl⟩
    omega

/-! ## The claims -/

/-- C1: in the task battery, a responseSubmitted step transitions to
Results exactly when the last task of the last category completes, and
not before; over the shipped 4-category catalog of sizes 2,1,1,1 this
is the 5th call. This theorem records what the code actually does: the
`emotion_app.py` variant behaves as claimed (results exactly from the
5th call on), while the `app.py` variant — which never increments
`task_idx` — enters results as soon as the FIRST category (2 tasks) is
exhausted, i.e. already on the 2nd call. -/
theorem spec2proof_c1_results_timing :
    (∀ es : List EmoInput,
        ((emoRun emoStart es).stage = Stage.results ↔ 5 ≤ es.length))
    ∧ (∀ ms : List (Metrics × String),
        ((appRun appStart ms).stage = Stage.results ↔ 2 ≤ ms.length)) := by
  constructor
  · intro es
    have hs : (emoRun emoStart es).stage = (emoCursorAt es.length).stage :=
      congrArg Cursor.stage (emoRun_reach es).1
    rw [hs]
    exact emoCursorAt_stage _
  · intro ms
    have hs : (appRun appStart ms).stage = (appCursorAt ms.length).stage :=
      congrArg Cursor.stage (appRun_reach ms).1
    rw [hs]
    exact appCursorAt_stage _

/-- C4: at every observation point after any number of completed
scoring steps, in both flow variants, the running total `mmse_score`
equals the sum of the score fields of the `task_performance` map. -/
theorem spec2proof_c4_score_sum (es : List EmoInput) (ms : List (Metrics × String)) :
    (emoRun emoStart es).analyzer.mmse_score
      = tpScoreSum (emoRun emoStart es).analyzer.task_performance
    ∧ (appRun appStart ms).analyzer.mmse_score
      = tpScoreSum (appRun appStart ms).analyzer.task_performance :=
  ⟨(emoRun_reach es).2.score_eq, (appRun_reach ms).2.score_eq⟩

/-- C5: after any number of completed responseSubmitted steps, the
stress, anxiety and depression histories and the emotion timeline all
have the same length, equal to the number of completed task responses
(`min` of the number of calls and the number of catalog tasks the
variant traverses), and — the catalog questions being pairwise
distinct — this also equals the size of `task_performance`. -/
theorem spec2proof_c5_history_lengths (es : List EmoInput) (ms : List (Metrics × String)) :
    ((emoRun emoStart es).analyzer.stress_history.length = min es.length 5
      ∧ (emoRun emoStart es).analyzer.anxiety_signals.length = min es.length 5
      ∧ (emoRun emoStart es).analyzer.depression_signals.length = min es.length 5
      ∧ (emoRun emoStart es).analyzer.emotion_timeline.length = min es.length 5
      ∧ (emoRun emoStart es).analyzer.task_performance.length
          = (emoRun emoStart es).analyzer.stress_history.length)
    ∧ ((appRun appStart ms).analyzer.stress_history.length = min ms.length 2
      ∧ (appRun appStart ms).analyzer.anxiety_signals.length = min ms.length 2
      ∧ (appRun appStart ms).analyzer.depression_signals.length = min ms.length 2
      ∧ (appRun appStart ms).analyzer.emotion_timeline.length = min ms.length 2
      ∧ (appRun appStart ms).analyzer.task_performance.length
          = (appRun appStart ms).analyzer.stress_history.length) := by
  have he := (emoRun_reach es).2
  have ha := (appRun_reach ms).2
  have hlen5 : (catalogTasks.take es.length).length = min es.length 5 := by
    rw [List.length_take]
    simp [catalogTasks]
  have hlen2 : (appOrderTasks.take ms.length).length = min ms.length 2 := by
    rw [List.length_take]
    simp [appOrderTasks]
  exact ⟨⟨he.len_stress.trans hlen5, he.len_anxiety.trans hlen5,
      he.len_depression.trans hlen5, he.len_timeline.trans hlen5,
      he.tp_length.trans he.len_stress.symm⟩,
    ⟨ha.len_stress.trans hlen2, ha.len_anxiety.trans hlen2,
      ha.len_depression.trans hlen2, ha.len_timeline.trans hlen2,
      ha.tp_length.trans ha.len_stress.symm⟩⟩

/-- C9: over the shipped catalog, `mmse_score` never exceeds 11 — the
sum of all point values (1+1+3+5+1) — in either flow variant, although
the results page and the PDF report render the score over a denominator
of 30, which is therefore unattainable. -/
theorem spec2proof_c9_score_bound (es : List EmoInput) (ms : List (Metrics × String)) :
    (emoRun emoStart es).analyzer.mmse_score ≤ catalogMaxScore
    ∧ (appRun appStart ms).analyzer.mmse_score ≤ catalogMaxScore
    ∧ catalogMaxScore = 11
    ∧ catalogMaxScore < pdfScoreDenominator := by
  refine ⟨(emoRun_reach es).2.score_bound, ?_, by decide, by decide⟩
  have h2 : (appOrderTasks.map Task.points).sum ≤ catalogMaxScore := by decide
  exact le_trans (appRun_reach ms).2.score_bound h2

/-- C10: `confusion_count` is zero at session creation/reset, no
scoring step of either flow variant ever changes it — the step mutates
only the score, the three signal histories, the emotion timeline and
the performance map — and it is zero at every observation point of
every session. -/
theorem spec2proof_c10_confusion_frame :
    resetAnalyzer.confusion_count = 0
    ∧ (∀ (s : EmoState) (i : EmoInput),
        (emoStep s i).analyzer.confusion_count = s.analyzer.confusion_count)
    ∧ (∀ (s : AppState) (m : Metrics) (text : String),
        (appStep s m text).analyzer.confusion_count = s.analyzer.confusion_count)
    ∧ (∀ es : List EmoInput,
        (emoRun emoStart es).analyzer.confusion_count = 0)
    ∧ (∀ ms : List (Metrics × String),
        (appRun appStart ms).analyzer.confusion_count = 0) :=
  ⟨rfl, emoStep_confusion, appStep_confusion,
    fun es => (emoRun_reach es).2.confusion_eq,
    fun ms => (appRun_reach ms).2.confusion_eq⟩

/-- C2 counterexample: the claim says a sequence-valued expectedAnswer
awards the points as soon as any expected element occurs as a substring
of the lower-cased transcription — so the memory task with transcription
"I remember apple and a penny" should award its 3 points ("apple"
occurs). The code instead applies `startswith(str(answer))` to every
task, and the transcription does not start with the rendered list, so
the awarded score is 0. -/
theorem spec2proof_c2_counterexample :
    task_memory.answer = Answer.strList ["apple", "table", "penny"]
    ∧ task_memory.points = 3
    ∧ pyContains (pyLower "I remember apple and a penny") "apple" = true
    ∧ appScore task_memory "I remember apple and a penny" = 0 :=
  ⟨rfl, rfl, rfl, rfl⟩

/-- C2 amended: for a catalog task with a sequence-valued
expectedAnswer, the awarded score equals the task's points exactly when
the lower-cased trimmed transcription starts with the Python `str()`
rendering of the whole expected list (brackets, commas, quotes), and is
0 otherwise; element-substring matching is not performed, so the
claim's example transcription awards 0. -/
theorem spec2proof_c2_amended (task : Task) (text : String)
    (hmem : task ∈ catalogTasks) (hseq : Answer.isSeq task.answer = true) :
    (appScore task text = task.points
        ↔ pyStartswith (pyLower (pyStrip text)) (pyStr task.answer) = true)
    ∧ (appScore task text = task.points ∨ appScore task text = 0) := by
  simp only [catalogTasks, List.mem_cons, List.not_mem_nil, or_false] at hmem
  rcases hmem with rfl | rfl | rfl | rfl | rfl
  · exact absurd hseq (by decide)
  · exact absurd hseq (by decide)
  · exact appScore_cases _ _ (by decide)
  · exact appScore_cases _ _ (by decide)
  · exact absurd hseq (by decide)

/-- C2 amended, witnessed: a transcription that does start with the
rendered list earns the memory task's full 3 points. -/
theorem spec2proof_c2_amended_witness :
    appScore task_memory "['apple', 'table', 'penny'] yes" = task_memory.points := by
  have h := spec2proof_c2_amended task_memory "['apple', 'table', 'penny'] yes"
    (by decide) rfl
  exact h.1.mpr (by decide)

/-- C3 counterexample: the claim says a step whose transcription
collaborator raises still completes with a neutral default, appending
metrics and a score and advancing the cursor. In `app.py` the
transcription call is not guarded: with the battery freshly loaded
(two orientation tasks pending, empty histories), a raising
transcription makes the step escape with an error, nothing appended,
score still 0, both tasks still pending — the step did not complete. -/
theorem spec2proof_c3_counterexample :
    appStepE appStart (Except.ok ⟨0, 0, 0⟩) (Except.error ())
        = Except.error (appLoad appStart)
    ∧ (appLoad appStart).analyzer.stress_history.length = 0
    ∧ (appLoad appStart).analyzer.mmse_score = 0
    ∧ (appLoad appStart).analyzer.task_performance = []
    ∧ (appLoad appStart).tasks_remaining = [task_year, task_season]
    ∧ (appLoad appStart).stage = Stage.mmse :=
  ⟨rfl, rfl, rfl, rfl, rfl, rfl⟩

/-- C3 amended: only the facial-emotion classification failure is
absorbed — in `emotion_app.py` a raising classifier is equivalent to
having no image at all (the label defaults to "neutral" and the step
completes identically). A raising transcription in `app.py` is not
caught: the step escapes with an error and the analyzer is exactly as
it was on entry (no appends, no score, no performance write). -/
theorem spec2proof_c3_amended :
    (∀ (s : EmoState) (m : Metrics) (resp : String),
        emoStep s ⟨m, some (Except.error ()), resp⟩ = emoStep s ⟨m, none, resp⟩)
    ∧ (∀ (s : AppState) (mv : Except Unit Metrics),
        appStepE s mv (Except.error ())
          = if s.stage = Stage.mmse then Except.error (appLoad s) else Except.ok s)
    ∧ (∀ s : AppState, (appLoad s).analyzer = s.analyzer) := by
  refine ⟨fun s m resp => rfl, ?_, appLoad_analyzer⟩
  intro s mv
  by_cases h : s.stage = Stage.mmse
  · rw [if_pos h]
    cases mv <;> simp [appStepE, h]
  · rw [if_neg h]
    simp [appStepE, h]

/-- C6: for a catalog task with a scalar expectedAnswer, the awarded
score equals the task's points exactly when the lower-cased trimmed
transcription starts with the lower-cased expected answer, and 0
otherwise — never partial credit. (Every shipped scalar answer is
already lower-case, so the code's un-lowered comparison agrees with
the claim.) -/
theorem spec2proof_c6_scalar_scoring (task : Task) (a : String) (text : String)
    (hmem : task ∈ catalogTasks) (hans : task.answer = Answer.scalar a) :
    appScore task text
      = (if pyStartswith (pyLower (pyStrip text)) (pyLower a) = true
          then task.points else 0)
    ∧ 0 < task.points := by
  simp only [catalogTasks, List.mem_cons, List.not_mem_nil, or_false] at hmem
  rcases hmem with rfl | rfl | rfl | rfl | rfl
  · injection hans with h
    subst h
    exact ⟨rfl, by decide⟩
  · injection hans with h
    subst h
    exact ⟨rfl, by decide⟩
  · injection hans
  · injection hans
  · injection hans with h
    subst h
    exact ⟨rfl, by decide⟩

/-- C6, witnessed on the claim's examples: expected "2024" with
transcription "2024, yes" awards the point, and with "it's 2025"
awards 0. -/
theorem spec2proof_c6_scalar_scoring_witness :
    appScore task_year "2024, yes" = 1 ∧ appScore task_year "it's 2025" = 0 := by
  have h1 := spec2proof_c6_scalar_scoring task_year "2024" "2024, yes" (by decide) rfl
  have h2 := spec2proof_c6_scalar_scoring task_year "2024" "it's 2025" (by decide) rfl
  refine ⟨?_, ?_⟩
  · rw [h1.1]
    decide
  · rw [h2.1]
    decide

/-- C7 counterexample: the claim says identityProvided advances to
Baseline only for a non-empty name (failing otherwise with a
ValidationError and no state change) — but the `emotion_app.py` form
advances unconditionally on submit: an empty name still reaches the
baseline stage. -/
theorem spec2proof_c7_counterexample :
    (emoIdentity { emoStart with stage := Stage.user_info } "" 18).stage
      = Stage.baseline :=
  rfl

/-- C7 amended: in `app.py` the identity step advances exactly when the
name is non-empty (the age widget already confines the age to
[18, 120]), and a violating input is a silent no-op — the state is
unchanged and no error of any kind is raised; in `emotion_app.py` the
step advances unconditionally on submit, empty name included. -/
theorem spec2proof_c7_amended (s : AppState) (s2 : EmoState)
    (name : String) (age : Nat)
    (hs : s.stage = Stage.user_info) (hs2 : s2.stage = Stage.user_info) :
    ((appIdentity s name).stage = Stage.baseline ↔ name ≠ "")
    ∧ (name = "" → appIdentity s name = s)
    ∧ (emoIdentity s2 name age).stage = Stage.baseline := by
  refine ⟨?_, ?_, ?_⟩
  · by_cases h : name = ""
    · subst h
      unfold appIdentity
      rw [if_neg (by simp)]
      rw [hs]
      constructor
      · intro hcon
        exact absurd hcon (by decide)
      · intro hcon
        exact absurd rfl hcon
    · unfold appIdentity
      rw [if_pos ⟨hs, h⟩]
      exact iff_of_true rfl h
  · intro h
    unfold appIdentity
    rw [if_neg (by simp [h])]
  · unfold emoIdentity
    rw [if_pos hs2]

/-- C7 amended, witnessed at a concrete user-info state and a concrete
non-empty name. -/
theorem spec2proof_c7_amended_witness :
    ((appIdentity { appStart with stage := Stage.user_info } "Kanwar Hamza").stage
        = Stage.baseline ↔ "Kanwar Hamza" ≠ "")
    ∧ ("Kanwar Hamza" = "" →
        appIdentity { appStart with stage := Stage.user_info } "Kanwar Hamza"
          = { appStart with stage := Stage.user_info })
    ∧ (emoIdentity { emoStart with stage := Stage.user_info } "Kanwar Hamza" 30).stage
        = Stage.baseline :=
  spec2proof_c7_amended { appStart with stage := Stage.user_info }
    { emoStart with stage := Stage.user_info } "Kanwar Hamza" 30 rfl rfl

/-- C8: an `app.py` responseSubmitted step that terminates with an
error escaping the step (a collaborator raising) leaves the
CognitiveSessionState entirely unchanged: both fallible collaborator
calls precede every session mutation of the step, so no append, no
performance write and no score increment is applied partially. -/
theorem spec2proof_c8_atomicity (s : AppState) (mv : Except Unit Metrics)
    (tr : Except Unit String) (hs : s.stage = Stage.mmse)
    (he : mv = Except.error () ∨ tr = Except.error ()) :
    appStepE s mv tr = Except.error (appLoad s)
    ∧ (appLoad s).analyzer = s.analyzer := by
  refine ⟨?_, appLoad_analyzer s⟩
  rcases he with rfl | rfl
  · simp [appStepE, hs]
  · cases mv <;> simp [appStepE, hs]

/-- C8, witnessed at the start of the battery with a failing voice
analysis. -/
theorem spec2proof_c8_atomicity_witness :
    appStepE appStart (Except.error ()) (Except.ok "2024")
        = Except.error (appLoad appStart)
    ∧ (appLoad appStart).analyzer = appStart.analyzer :=
  spec2proof_c8_atomicity appStart (Except.error ()) (Except.ok "2024")
    rfl (Or.inl rfl)

end EmotionDetection
